import Mathlib

/-!
Shallow embedding of the retrieval-and-ranking orchestration core of the
aika_backend repository: query expansion parsing (src/api/core/rag.py,
expand_query), fan-out retrieval and gather (generate_answer), text-based
deduplication and VSME priority ranking (generate_answer), the ÖNACE industry
taxonomy (src/api/core/onace_categories.py), and the topic link classifier
(src/api/core/link_detector.py).

External network calls (OpenAI completions, vector search) are modelled as
oracles in an Env record: each call site receives either the raw textual /
structural response (`some r`) or a call failure (`none`, corresponding to a
raised exception at that call site). Python floats occur only as relevance
scores and are only ever compared, so scores are modelled as `Option Int`
(a missing "score" key sorts as plus infinity, mirroring the sort keys
used by rag.py, x.get with key "score" and default float inf). Python string operations
(`str.split`, `str.strip`, `str.lower`, slicing) are modelled structurally
over `List Char` so that all definitions compute by kernel reduction.
-/

namespace Aika

/-- Model of the chunk "metadata" dict: `filename` may be absent (call sites
use `.get("filename", "Unknown source")`), and `is_vsme` defaults to `False`
when absent (call sites use `.get("is_vsme", False)`), so it is stored as a
plain Bool. -/
structure Metadata where
  filename : Option String
  is_vsme : Bool
  deriving DecidableEq, Repr

/-- Model of an evidence chunk dict as returned by the vector-search
collaborator: `chunk_id`, `text`, a float relevance `score` (lower = better,
modelled as `Option Int`; `none` = missing key = plus infinity), and metadata. -/
structure Chunk where
  chunk_id : Option String
  text : String
  score : Option Int
  metadata : Metadata
  deriving DecidableEq, Repr

/-- Ordering on optional scores: compare the values, with a missing score
behaving as plus infinity, exactly as the sort key used throughout rag.py
(x.get with key "score" and default float inf) behaves. -/
def optLE (x y : Option Int) : Bool :=
  match x, y with
  | some a, some b => a ≤ b
  | some _, none => true
  | none, some _ => false
  | none, none => true

/-- Comparison of two chunks by their score sort key. -/
def scoreLE (a b : Chunk) : Bool := optLE a.score b.score

/-- Prop-valued form of scoreLE, as required by the Mathlib sorting API. -/
def chunkLE (a b : Chunk) : Prop := scoreLE a b = true

instance : DecidableRel chunkLE := fun a b => Bool.decEq (scoreLE a b) true

instance : IsTrans Chunk chunkLE :=
  ⟨fun a b c => by
    show optLE a.score b.score = true → optLE b.score c.score = true →
      optLE a.score c.score = true
    generalize a.score = x
    generalize b.score = y
    generalize c.score = z
    cases x <;> cases y <;> cases z <;> simp [optLE] <;> omega⟩

instance : IsTotal Chunk chunkLE :=
  ⟨fun a b => by
    show optLE a.score b.score = true ∨ optLE b.score a.score = true
    generalize a.score = x
    generalize b.score = y
    cases x <;> cases y <;> simp [optLE] <;> omega⟩

/-- Ascending stable sort by score. Python list.sort with the score key is a
stable sort; it is modelled with insertion sort, which is also stable, and on
a total preorder all stable sorts produce the same output list. -/
def sortByScore (l : List Chunk) : List Chunk := List.insertionSort chunkLE l

/-- Python str.strip(): remove leading and trailing whitespace. -/
def pyStrip (l : List Char) : List Char :=
  ((l.dropWhile Char.isWhitespace).reverse.dropWhile Char.isWhitespace).reverse

/-- Helper for pySplit, accumulating the current field in reverse. -/
def pySplitAux (sep : Char) : List Char → List Char → List (List Char)
  | [], acc => [acc.reverse]
  | c :: rest, acc =>
    if c = sep then acc.reverse :: pySplitAux sep rest []
    else pySplitAux sep rest (c :: acc)

/-- Python str.split(sep) for a one-character separator: splits at every
occurrence; the empty string yields a single empty field. -/
def pySplit (sep : Char) (l : List Char) : List (List Char) :=
  pySplitAux sep l []

/-- Everything after the first occurrence of sep, i.e. Python
s.split(sep, 1)[1] when sep occurs in s. -/
def pyAfterFirst (sep : Char) : List Char → List Char
  | [] => []
  | c :: rest => if c = sep then rest else pyAfterFirst sep rest

/-- The double-quote character, code point 34. -/
def dquote : Char := Char.ofNat 34

/-- The single-quote character, code point 39. -/
def squote : Char := Char.ofNat 39

/-- Leading list-numbering removal from expand_query (rag.py lines 71-73):
only when the first character is a digit AND a period occurs within the first
three characters is the prefix up to the first period removed (and the rest
stripped). Parenthesis-style numbering is not handled. -/
def stripNumbering (l : List Char) : List Char :=
  match l with
  | [] => []
  | c :: _ =>
    if c.isDigit && (l.take 3).contains '.' then pyStrip (pyAfterFirst '.' l)
    else l

/-- Surrounding-quote removal from expand_query (rag.py lines 74-78):
when the line starts and ends with the quote character q, drop the first and
last character (Python clean_line[1:-1]). -/
def stripSurrounding (q : Char) (l : List Char) : List Char :=
  match l with
  | [] => []
  | c :: _ =>
    if c = q && l.getLast? = some q then (l.drop 1).dropLast
    else l

/-- Per-line processing of the expansion response (rag.py lines 67-79,
body of the for loop): strip the line, discard it when empty, otherwise
remove digit-period numbering, then one layer of surrounding double quotes,
then one layer of surrounding single quotes, and keep the result. -/
def cleanLine (line : List Char) : Option String :=
  let c := pyStrip line
  if c.isEmpty then none
  else
    let c1 := stripNumbering c
    let c2 := stripSurrounding dquote c1
    let c3 := stripSurrounding squote c2
    some c3.asString

/-- Parsing of the whole expansion response text (rag.py lines 63-79):
the response content is stripped, split into lines, and each line processed
by cleanLine; empty lines are dropped. -/
def parseExpandedQueries (raw : String) : List String :=
  (pySplit '\n' (pyStrip raw.data)).filterMap cleanLine

/-- expand_query (rag.py lines 41-85): on a successful model call the parsed
lines, truncated to at most num_expansions; on any call failure (`none`) the
empty list (the except branch returns []). The user query itself only feeds
the model prompt, hence only the oracle response appears here. -/
def expand_query (resp : Option String) (num_expansions : Nat) : List String :=
  match resp with
  | none => []
  | some raw => (parseExpandedQueries raw).take num_expansions

/-- Oracle environment for one generate_answer request: the raw expansion
response (none = expansion call raised), the per-query search results
(none = that retrieval raised), the synthesis response (none = the completion
call raised), and the raw link-classifier response (none = that call raised). -/
structure Env where
  expansionResponse : Option String
  search : String → Option (List Chunk)
  synthesisResponse : Option String
  classifyResponse : Option String

/-- Model of asyncio.gather over the per-query retrieval tasks
(rag.py line 123): if any task raises, gather raises, aborting the batch;
otherwise all result lists are returned in order. -/
def gatherAll : List (Option (List Chunk)) → Option (List (List Chunk))
  | [] => some []
  | o :: rest =>
    match o, gatherAll rest with
    | some l, some ls => some (l :: ls)
    | _, _ => none

/-- The search query list of rag.py line 119: the original query followed by
the (at most 4) expanded queries. -/
def search_queries (env : Env) (query : String) : List String :=
  query :: expand_query env.expansionResponse 4

/-- Text-keyed deduplication loop of rag.py lines 131-137: iterate over the
(already sorted) chunk list, keeping a chunk only when its text has not been
seen before (Python dict insertion preserves first-occurrence order). -/
def dedupLoop : List Chunk → List String → List Chunk
  | [], _ => []
  | c :: rest, seen =>
    if c.text ∈ seen then dedupLoop rest seen
    else c :: dedupLoop rest (c.text :: seen)

/-- Deduplication as performed in generate_answer (rag.py lines 129-137):
sort the full pool ascending by score (missing score = plus infinity), then
keep the first occurrence of each distinct text. -/
def dedup (chunks : List Chunk) : List Chunk :=
  dedupLoop (sortByScore chunks) []

/-- The VSME quota of rag.py line 149: vsme_limit = max(1, top_k // 2). -/
def vsme_limit (top_k : Nat) : Nat := max 1 (top_k / 2)

/-- Priority ranking of rag.py lines 139-150: partition the deduplicated
chunks into VSME and other, sort each partition ascending by score, and take
up to vsme_limit VSME chunks followed by up to top_k - vsme_limit others.
top_k is a Nat: the API always passes a positive top_k (default 3). -/
def rank (unique_chunks : List Chunk) (top_k : Nat) : List Chunk :=
  let vsme_chunks := sortByScore (unique_chunks.filter (fun c => c.metadata.is_vsme))
  let other_chunks := sortByScore (unique_chunks.filter (fun c => !c.metadata.is_vsme))
  vsme_chunks.take (vsme_limit top_k) ++ other_chunks.take (top_k - vsme_limit top_k)

/-- Source attribution of rag.py line 231:
chunk.get("metadata", {}).get("filename", "Unknown source"). -/
def sourceName (chunk : Chunk) : String :=
  chunk.metadata.filename.getD ("Unknown source")

/-- The manager-specified topic → URL table of link_detector.py lines 18-22. -/
def manager_links (topic : String) : Option String :=
  if topic = "water" then some ("https://maps.wisa.bmluk.gv.at/emreg")
  else if topic = "industry" then some ("https://industry.eea.europa.eu/explore/explore-data-map/map")
  else if topic = "nature" then some ("https://natura2000.eea.europa.eu")
  else none

/-- Model of _classify_query_intent (link_detector.py lines 56-145): the model response
is stripped and lowercased; only the three known topics are accepted, anything
else yields None, and a call failure (except branch) also yields None. The
query, chunks and industry code only feed the model prompt, hence only the
oracle response appears here. -/
def classify_query_intent (resp : Option String) : Option String :=
  match resp with
  | none => none
  | some raw =>
    let classification := ((pyStrip raw.data).map Char.toLower).asString
    if classification = "water" ∨ classification = "industry" ∨ classification = "nature" then
      some classification
    else none

/-- get_relevant_links (link_detector.py lines 31-54): classify the intent,
and return the single table URL when the topic is one of the table keys,
otherwise the empty list; any failure also yields the empty list. -/
def get_relevant_links (resp : Option String) : List String :=
  match classify_query_intent resp with
  | some topic =>
    match manager_links topic with
    | some url => [url]
    | none => []
  | none => []

/-- The result dict of generate_answer. -/
structure AnswerResult where
  answer : String
  chunks : List Chunk
  expanded_queries : List String
  sources : List String
  relevant_links : List String
  success : Bool
  deriving DecidableEq, Repr

/-- The fixed error result of the except branch of generate_answer
(rag.py lines 236-245). -/
def errorResult : AnswerResult :=
  { answer := "I apologize, but I encountered an error while processing your request."
    chunks := []
    expanded_queries := []
    sources := []
    relevant_links := []
    success := false }

/-- generate_answer (rag.py lines 104-245): expand the query (expansion
failure degrades to zero expansions), gather the per-query retrievals
(any single failure raises out of gather and lands in the except branch),
flatten, deduplicate by text, rank with the VSME quota, synthesize (a failure
lands in the except branch), classify the link, and assemble the result. -/
def generate_answer (env : Env) (query : String) (top_k : Nat) : AnswerResult :=
  let expanded_queries := expand_query env.expansionResponse 4
  match gatherAll ((search_queries env query).map env.search) with
  | none => errorResult
  | some list_of_chunk_lists =>
    let all_chunks := list_of_chunk_lists.flatten
    let unique_chunks := dedup all_chunks
    let top_unique_chunks := rank unique_chunks top_k
    match env.synthesisResponse with
    | none => errorResult
    | some answer =>
      { answer := answer
        chunks := top_unique_chunks
        expanded_queries := expanded_queries
        sources := top_unique_chunks.map sourceName
        relevant_links := get_relevant_links env.classifyResponse
        success := true }

/-- The flattened retrieval pool of rag.py lines 122-126 (empty when the
gather aborted). -/
def retrievedPool (env : Env) (query : String) : List Chunk :=
  match gatherAll ((search_queries env query).map env.search) with
  | some ls => ls.flatten
  | none => []

/-- ÖNACE catalog keys (onace_categories.py lines 20-43): the code "0"
(general) plus the closed alphabet A..U. Only the key set matters to the
filtering logic; the attached German/English names are never consulted. -/
def ONACE_CATEGORIES : List String :=
  ["0", "A", "B", "C", "D", "E", "F", "G", "H", "I", "J", "K",
   "L", "M", "N", "O", "P", "Q", "R", "S", "T", "U"]

/-- The comma-split, trimmed, catalog-filtered tokens of the loop in
parse_onace_codes (onace_categories.py lines 64-68): each comma field is
stripped, and kept only when non-empty and a catalog key. -/
def validTokens (onace_string : String) : List String :=
  ((pySplit ',' onace_string.data).map (fun t => (pyStrip t).asString)).filter
    (fun c => decide (c ≠ "" ∧ c ∈ ONACE_CATEGORIES))

/-- parse_onace_codes (onace_categories.py lines 56-74): empty input or the
literal "nan" defaults to {"0"}; otherwise split on commas, trim, keep catalog
keys, and default to {"0"} when nothing valid remains. -/
def parse_onace_codes (onace_string : String) : Finset String :=
  if onace_string = "" ∨ onace_string = "nan" then {"0"}
  else if (validTokens onace_string).toFinset = ∅ then {"0"}
  else (validTokens onace_string).toFinset

/-- is_document_relevant (onace_categories.py lines 86-93): general documents
(code "0") are always relevant, otherwise the user code must be among the
document codes. -/
def is_document_relevant (document_onace_codes : Finset String) (user_onace_code : String) : Bool :=
  if "0" ∈ document_onace_codes then true
  else decide (user_onace_code ∈ document_onace_codes)

/-- A document record as consumed by get_relevant_documents: the raw ÖNACE
code string may be absent (the call site uses doc.get with key "onace_codes" and default "0"). -/
structure Document where
  name : String
  onace_codes : Option String
  deriving DecidableEq, Repr

/-- The doc.get access with default "0" of onace_categories.py line 101. -/
def Document.rawCodes (d : Document) : String :=
  d.onace_codes.getD ("0")

/-- get_relevant_documents (onace_categories.py lines 96-105): keep the
documents whose parsed codes are relevant to the user code. -/
def get_relevant_documents (documents : List Document) (user_onace_code : String) : List Document :=
  documents.filter
    (fun doc => is_document_relevant (parse_onace_codes doc.rawCodes) user_onace_code)

/-- A VSME-flagged evidence chunk used in the concrete scenarios below. -/
def chunkWater : Chunk :=
  { chunk_id := some ("c1")
    text := "water evidence"
    score := some 1
    metadata := { filename := some ("wasser.pdf"), is_vsme := true } }

/-- Scenario environment in which the retrieval for the original query
succeeds with one chunk while the retrieval for the expanded query raises:
exactly one task of the gather fails. -/
def gatherFailEnv : Env :=
  { expansionResponse := some ("alternative water query")
    search := fun q => if q = "water query" then some [chunkWater] else none
    synthesisResponse := some ("an answer")
    classifyResponse := none }

/-- Scenario environment whose synthesis call raises. -/
def synthFailEnv : Env :=
  { expansionResponse := none
    search := fun _ => some [chunkWater]
    synthesisResponse := none
    classifyResponse := none }

/-- Scenario environment in which every stage succeeds and the single
retrieval returns one chunk. -/
def frameEnv : Env :=
  { expansionResponse := none
    search := fun _ => some [chunkWater]
    synthesisResponse := some ("an answer")
    classifyResponse := some ("water") }

/-- A chunk with text shared with chunkDupHigh but the lower score. -/
def chunkDupLow : Chunk :=
  { chunk_id := some ("d1")
    text := "duplicate text"
    score := some 2
    metadata := { filename := none, is_vsme := false } }

/-- A chunk with text shared with chunkDupLow but the higher score. -/
def chunkDupHigh : Chunk :=
  { chunk_id := some ("d2")
    text := "duplicate text"
    score := some 5
    metadata := { filename := none, is_vsme := false } }

/-- A deduplicated pool for the ranking scenario. -/
def rankDemoChunks : List Chunk := [chunkWater, chunkDupLow, chunkDupHigh]

/-- A document whose raw industry tag is lowercase, hence not an exact-case
catalog token. -/
def lowercaseDoc : Document :=
  { name := "doc", onace_codes := some ("c") }

/-- Reflexivity of the score comparison. -/
theorem scoreLE_refl (a : Chunk) : scoreLE a a = true := by
  show optLE a.score a.score = true
  generalize a.score = x
  cases x <;> simp [optLE]

/-- Sorting preserves membership. -/
theorem mem_sortByScore {c : Chunk} {l : List Chunk} : c ∈ sortByScore l ↔ c ∈ l :=
  (List.perm_insertionSort chunkLE l).mem_iff

/-- The sorted pool is ascending with respect to the score comparison. -/
theorem sortByScore_sorted (l : List Chunk) : (sortByScore l).Pairwise chunkLE :=
  List.sorted_insertionSort chunkLE l

/-- Sorting preserves length. -/
theorem sortByScore_length (l : List Chunk) : (sortByScore l).length = l.length :=
  (List.perm_insertionSort chunkLE l).length_eq

/-- Sorting an already ascending list is the identity. -/
theorem sortByScore_eq_self {l : List Chunk} (h : l.Pairwise chunkLE) : sortByScore l = l :=
  List.Sorted.insertionSort_eq h

/-- A chunk kept by the dedup loop has a text outside the seen set. -/
theorem mem_dedupLoop_not_seen :
    ∀ (l : List Chunk) (seen : List String) (b : Chunk),
      b ∈ dedupLoop l seen → b.text ∉ seen := by
  intro l
  induction l with
  | nil => intro seen b hb; simp [dedupLoop] at hb
  | cons c rest ih =>
    intro seen b hb
    by_cases hc : c.text ∈ seen
    · simp only [dedupLoop, if_pos hc] at hb
      exact ih seen b hb
    · simp only [dedupLoop, if_neg hc] at hb
      rcases List.mem_cons.mp hb with rfl | hb
      · exact hc
      · intro hmem
        exact ih (c.text :: seen) b hb (List.mem_cons_of_mem _ hmem)

/-- The dedup loop output is a sublist of its input. -/
theorem dedupLoop_sublist :
    ∀ (l : List Chunk) (seen : List String), List.Sublist (dedupLoop l seen) l := by
  intro l
  induction l with
  | nil => intro seen; simp [dedupLoop]
  | cons c rest ih =>
    intro seen
    by_cases hc : c.text ∈ seen
    · simp only [dedupLoop, if_pos hc]
      exact (ih seen).cons c
    · simp only [dedupLoop, if_neg hc]
      exact (ih (c.text :: seen)).cons₂ c

/-- On an ascending input, every chunk the dedup loop keeps has a score at
most the score of every same-text chunk of the input. -/
theorem dedupLoop_min :
    ∀ (l : List Chunk) (seen : List String), l.Pairwise chunkLE →
      ∀ b ∈ dedupLoop l seen, ∀ a ∈ l, a.text = b.text → scoreLE b a = true := by
  intro l
  induction l with
  | nil => intro seen _ b hb; simp [dedupLoop] at hb
  | cons c rest ih =>
    intro seen hp b hb a ha hab
    rcases List.pairwise_cons.mp hp with ⟨hcle, hrest⟩
    by_cases hc : c.text ∈ seen
    · simp only [dedupLoop, if_pos hc] at hb
      rcases List.mem_cons.mp ha with rfl | ha
      · have hns := mem_dedupLoop_not_seen rest seen b hb
        exact absurd (hab ▸ hc) hns
      · exact ih seen hrest b hb a ha hab
    · simp only [dedupLoop, if_neg hc] at hb
      rcases List.mem_cons.mp hb with rfl | hb
      · rcases List.mem_cons.mp ha with rfl | ha
        · exact scoreLE_refl a
        · exact hcle a ha
      · rcases List.mem_cons.mp ha with rfl | ha
        · have hns := mem_dedupLoop_not_seen rest (a.text :: seen) b hb
          have : b.text ∈ a.text :: seen := by
            rw [← hab]
            exact List.mem_cons_self _ _
          exact absurd this hns
        · exact ih (c.text :: seen) hrest b hb a ha hab

/-- The dedup loop keeps pairwise distinct texts. -/
theorem dedupLoop_text_nodup :
    ∀ (l : List Chunk) (seen : List String),
      (dedupLoop l seen).Pairwise (fun a b => a.text ≠ b.text) := by
  intro l
  induction l with
  | nil => intro seen; simp [dedupLoop]
  | cons c rest ih =>
    intro seen
    by_cases hc : c.text ∈ seen
    · simpa only [dedupLoop, if_pos hc] using ih seen
    · simp only [dedupLoop, if_neg hc]
      refine List.pairwise_cons.mpr ⟨?_, ih (c.text :: seen)⟩
      intro b hb hbt
      have hns := mem_dedupLoop_not_seen rest (c.text :: seen) b hb
      exact hns (by rw [← hbt]; exact List.mem_cons_self _ _)

/-- On a list with pairwise distinct texts none of which was seen, the dedup
loop is the identity. -/
theorem dedupLoop_eq_self :
    ∀ (l : List Chunk) (seen : List String),
      l.Pairwise (fun a b => a.text ≠ b.text) →
      (∀ c ∈ l, c.text ∉ seen) →
      dedupLoop l seen = l := by
  intro l
  induction l with
  | nil => intro seen _ _; simp [dedupLoop]
  | cons c rest ih =>
    intro seen hp hseen
    have hc : c.text ∉ seen := hseen c (List.mem_cons_self c rest)
    rcases List.pairwise_cons.mp hp with ⟨hhead, htail⟩
    have hrest2 : ∀ d ∈ rest, d.text ∉ c.text :: seen := by
      intro d hd hmem
      rcases List.mem_cons.mp hmem with h | h
      · exact hhead d hd h.symm
      · exact hseen d (List.mem_cons_of_mem _ hd) h
    simp only [dedupLoop, if_neg hc]
    rw [ih (c.text :: seen) htail hrest2]

/-- Every text present in the input keeps one representative in the dedup
loop output. -/
theorem dedupLoop_keeps_text :
    ∀ (l : List Chunk) (seen : List String) (a : Chunk),
      a ∈ l → a.text ∉ seen → ∃ c ∈ dedupLoop l seen, c.text = a.text := by
  intro l
  induction l with
  | nil => intro seen a ha _; simp at ha
  | cons c rest ih =>
    intro seen a ha hseen
    by_cases hc : c.text ∈ seen
    · simp only [dedupLoop, if_pos hc]
      rcases List.mem_cons.mp ha with rfl | ha
      · exact absurd hc hseen
      · exact ih seen a ha hseen
    · simp only [dedupLoop, if_neg hc]
      rcases List.mem_cons.mp ha with rfl | ha
      · exact ⟨a, List.mem_cons_self _ _, rfl⟩
      · by_cases hat : a.text = c.text
        · exact ⟨c, List.mem_cons_self _ _, hat.symm⟩
        · have hout : a.text ∉ c.text :: seen := by
            intro hmem
            rcases List.mem_cons.mp hmem with h | h
            · exact hat h
            · exact hseen h
          obtain ⟨d, hd, hdt⟩ := ih (c.text :: seen) a ha hout
          exact ⟨d, List.mem_cons_of_mem _ hd, hdt⟩

/-- Deduplication only selects from the pool. -/
theorem mem_dedup {c : Chunk} {X : List Chunk} (hc : c ∈ dedup X) : c ∈ X :=
  mem_sortByScore.mp ((dedupLoop_sublist (sortByScore X) []).subset hc)

/-- The deduplicated pool is ascending by score. -/
theorem dedup_sorted (X : List Chunk) : (dedup X).Pairwise chunkLE :=
  List.Pairwise.sublist (dedupLoop_sublist (sortByScore X) []) (sortByScore_sorted X)

/-- A surviving chunk has minimal score among all same-text chunks of the pool. -/
theorem dedup_min (X : List Chunk) (b : Chunk) (hb : b ∈ dedup X) :
    ∀ a ∈ X, a.text = b.text → scoreLE b a = true := by
  intro a ha hab
  exact dedupLoop_min (sortByScore X) [] (sortByScore_sorted X) b hb a
    (mem_sortByScore.mpr ha) hab

/-- Deduplication is idempotent. -/
theorem dedup_idem (X : List Chunk) : dedup (dedup X) = dedup X := by
  show dedupLoop (sortByScore (dedup X)) [] = dedup X
  rw [sortByScore_eq_self (dedup_sorted X)]
  exact dedupLoop_eq_self (dedup X) [] (dedupLoop_text_nodup (sortByScore X) []) (by simp)

/-- Ranking only selects from the deduplicated pool. -/
theorem mem_rank {c : Chunk} {l : List Chunk} {k : Nat} (hc : c ∈ rank l k) : c ∈ l := by
  unfold rank at hc
  rcases List.mem_append.mp hc with h | h
  · exact (List.mem_filter.mp (mem_sortByScore.mp (List.take_subset _ _ h))).1
  · exact (List.mem_filter.mp (mem_sortByScore.mp (List.take_subset _ _ h))).1

/-- C3: deduplication sorts the full pool ascending by score and keeps, for
each distinct text, the first occurrence in that order; hence a surviving
chunk has minimal score among all same-text chunks of the pool, of two
same-text chunks with different scores only the lower-score one survives,
every text present in the pool keeps one representative, and dedup is
idempotent: dedup (dedup X) = dedup X for every pool X. -/
theorem dedup_spec :
    (∀ (X : List Chunk) (b : Chunk), b ∈ dedup X →
        ∀ a ∈ X, a.text = b.text → scoreLE b a = true)
  ∧ (∀ (X : List Chunk) (a b : Chunk), a ∈ X → b ∈ X → a.text = b.text →
        scoreLE b a = false → b ∉ dedup X)
  ∧ (∀ (X : List Chunk) (a : Chunk), a ∈ X → ∃ c ∈ dedup X, c.text = a.text)
  ∧ (∀ X : List Chunk, dedup (dedup X) = dedup X) := by
  refine ⟨fun X b hb a ha hab => dedup_min X b hb a ha hab, ?_, ?_, dedup_idem⟩
  · intro X a b ha _ hab hlt hmem
    have hle := dedup_min X b hmem a ha hab
    rw [hle] at hlt
    exact Bool.noConfusion hlt
  · intro X a ha
    exact dedupLoop_keeps_text (sortByScore X) [] a (mem_sortByScore.mpr ha) (by simp)

/-- Witness for dedup_spec: of two concrete chunks with equal text and scores
2 and 5, the score-5 chunk does not survive deduplication. -/
theorem dedup_spec_witness :
    chunkDupHigh ∉ dedup [chunkDupHigh, chunkDupLow] :=
  dedup_spec.2.1 [chunkDupHigh, chunkDupLow] chunkDupLow chunkDupHigh
    (by decide) (by decide) (by decide) (by decide)

/-- C2: for every deduplicated chunk list and every topK at least 1, the
priority ranker outputs primary.take (max 1 (topK/2)) followed by
other.take (topK - max 1 (topK/2)), with primary the VSME-flagged chunks and
other the rest, each partition sorted ascending by score; the output length
is at most topK, and when primary has fewer than the quota the output is
shorter by exactly that deficit, the other partition still contributing at
most topK - quota chunks (no backfill). -/
theorem rank_spec :
    ∀ (unique_chunks : List Chunk) (top_k : Nat), 1 ≤ top_k →
      (rank unique_chunks top_k
          = (sortByScore (unique_chunks.filter (fun c => c.metadata.is_vsme))).take
              (max 1 (top_k / 2))
            ++ (sortByScore (unique_chunks.filter (fun c => !c.metadata.is_vsme))).take
              (top_k - max 1 (top_k / 2)))
      ∧ (rank unique_chunks top_k).length ≤ top_k
      ∧ ((sortByScore (unique_chunks.filter (fun c => c.metadata.is_vsme))).take
            (max 1 (top_k / 2))).Pairwise chunkLE
      ∧ ((sortByScore (unique_chunks.filter (fun c => !c.metadata.is_vsme))).take
            (top_k - max 1 (top_k / 2))).Pairwise chunkLE
      ∧ ((unique_chunks.filter (fun c => c.metadata.is_vsme)).length < max 1 (top_k / 2) →
          (rank unique_chunks top_k).length
            = (unique_chunks.filter (fun c => c.metadata.is_vsme)).length
              + min (top_k - max 1 (top_k / 2))
                  (unique_chunks.filter (fun c => !c.metadata.is_vsme)).length) := by
  intro uc k hk
  have hlen : (rank uc k).length
      = min (max 1 (k / 2)) (uc.filter (fun c => c.metadata.is_vsme)).length
        + min (k - max 1 (k / 2)) (uc.filter (fun c => !c.metadata.is_vsme)).length := by
    show ((sortByScore (uc.filter (fun c => c.metadata.is_vsme))).take (max 1 (k / 2))
        ++ (sortByScore (uc.filter (fun c => !c.metadata.is_vsme))).take
            (k - max 1 (k / 2))).length = _
    rw [List.length_append, List.length_take, List.length_take,
      sortByScore_length, sortByScore_length]
  refine ⟨rfl, ?_, ?_, ?_, ?_⟩
  · rw [hlen]
    omega
  · exact List.Pairwise.sublist (List.take_sublist _ _)
      (sortByScore_sorted (uc.filter (fun c => c.metadata.is_vsme)))
  · exact List.Pairwise.sublist (List.take_sublist _ _)
      (sortByScore_sorted (uc.filter (fun c => !c.metadata.is_vsme)))
  · intro hdef
    rw [hlen]
    omega

/-- Witness for rank_spec at the concrete three-chunk pool and topK = 3. -/
theorem rank_spec_witness :
    (rank rankDemoChunks 3).length ≤ 3 :=
  (rank_spec rankDemoChunks 3 (by decide)).2.1

/-- C4: if the synthesis call fails, generate_answer returns exactly the
fixed apology record: the apology text, empty chunks, empty expanded queries,
empty sources, no links and success = false; no exception propagates, the
caller always receives this well-formed record. -/
theorem synthesis_failure_spec :
    ∀ (env : Env) (query : String) (top_k : Nat), env.synthesisResponse = none →
      generate_answer env query top_k =
        { answer := "I apologize, but I encountered an error while processing your request."
          chunks := []
          expanded_queries := []
          sources := []
          relevant_links := []
          success := false } := by
  intro env query top_k h
  unfold generate_answer
  rcases hg : gatherAll ((search_queries env query).map env.search) with _ | ls
  · rfl
  · rw [h]
    rfl

/-- Witness for synthesis_failure_spec at the concrete failing environment. -/
theorem synthesis_failure_witness :
    generate_answer synthFailEnv ("water query") 3 =
      { answer := "I apologize, but I encountered an error while processing your request."
        chunks := []
        expanded_queries := []
        sources := []
        relevant_links := []
        success := false } :=
  synthesis_failure_spec synthFailEnv ("water query") 3 rfl

/-- C1 (violated by the code): in gatherFailEnv the retrieval for the original
query succeeds with chunkWater while the retrieval for the expanded query
fails; generate_answer aborts the whole batch, returning the error record, so
the successfully retrieved chunk never reaches deduplication and ranking and
is absent from the evidence, contrary to the partial-results requirement. -/
theorem gather_partial_failure_aborts :
    gatherFailEnv.search ("water query") = some [chunkWater]
  ∧ gatherFailEnv.search ("alternative water query") = none
  ∧ search_queries gatherFailEnv ("water query")
      = ["water query", "alternative water query"]
  ∧ generate_answer gatherFailEnv ("water query") 3 = errorResult
  ∧ chunkWater ∉ (generate_answer gatherFailEnv ("water query") 3).chunks := by
  refine ⟨by decide, by decide, by decide, by decide, by decide⟩

/-- C5 counterexample: a line numbered in the digit-parenthesis style ("1) ")
is returned with its numbering intact, not stripped as the claim requires. -/
theorem expansion_numbering_counterexample :
    expand_query (some ("1) water quality")) 4 = ["1) water quality"]
  ∧ expand_query (some ("1) water quality")) 4 ≠ ["water quality"] :=
  ⟨by decide, by decide⟩

/-- C5 (amended): expand_query returns at most n strings; on any call failure
it returns the empty sequence and never throws; on success the output is
exactly the stripped non-empty lines of the response processed by cleanLine
(digit-period numbering such as "1. " removed when the period falls within
the first three characters — parenthesis-style numbering is not removed —
then one layer of surrounding double quotes and one layer of surrounding
single quotes), truncated to n; and the orchestrator always searches with the
original query in first position. -/
theorem expand_query_contract :
    (∀ (resp : Option String) (n : Nat), (expand_query resp n).length ≤ n)
  ∧ (∀ n : Nat, expand_query none n = [])
  ∧ (∀ (raw : String) (n : Nat),
      expand_query (some raw) n
        = ((pySplit '\n' (pyStrip raw.data)).filterMap cleanLine).take n)
  ∧ (∀ (env : Env) (query : String),
      search_queries env query = query :: expand_query env.expansionResponse 4) := by
  refine ⟨?_, fun n => rfl, fun raw n => rfl, fun env query => rfl⟩
  intro resp n
  rcases resp with _ | raw
  · simp [expand_query]
  · show ((parseExpandedQueries raw).take n).length ≤ n
    rw [List.length_take]
    omega

/-- C6: is_document_relevant is true exactly when the document codes contain
"0" or contain the user code; a document tagged with just "0" is relevant to
every catalog code, while a document tagged with just "C" is relevant to "C"
and to no other catalog code (relevance is not symmetric). -/
theorem is_document_relevant_spec :
    (∀ (document_onace_codes : Finset String) (user_onace_code : String),
        is_document_relevant document_onace_codes user_onace_code = true
          ↔ "0" ∈ document_onace_codes ∨ user_onace_code ∈ document_onace_codes)
  ∧ (∀ u ∈ ONACE_CATEGORIES, is_document_relevant {"0"} u = true)
  ∧ is_document_relevant {"C"} ("C") = true
  ∧ (∀ u ∈ ONACE_CATEGORIES, u ≠ "C" → is_document_relevant {"C"} u = false) := by
  refine ⟨?_, by decide, by decide, by decide⟩
  intro dc uc
  unfold is_document_relevant
  by_cases h0 : "0" ∈ dc <;> simp [h0]

/-- Witness for is_document_relevant_spec: a document tagged with just "C" is
not relevant to user code "A". -/
theorem is_document_relevant_witness :
    is_document_relevant {"C"} ("A") = false :=
  is_document_relevant_spec.2.2.2 ("A") (by decide) (by decide)

/-- C7: membership in parse_onace_codes is exactly membership in the comma
split, trimmed, catalog-filtered token list, with the fallback set containing
just "0" when no valid token remains; in particular the empty string, the
literal "nan" and "zzz" all parse to that fallback set. -/
theorem parse_onace_codes_spec :
    (∀ (s x : String),
        x ∈ parse_onace_codes s ↔ (x ∈ validTokens s ∨ (validTokens s = [] ∧ x = "0")))
  ∧ parse_onace_codes ("") = {"0"}
  ∧ parse_onace_codes ("nan") = {"0"}
  ∧ parse_onace_codes ("zzz") = {"0"} := by
  refine ⟨?_, by decide, by decide, by decide⟩
  intro s x
  unfold parse_onace_codes
  by_cases hs : s = "" ∨ s = "nan"
  · rw [if_pos hs]
    have hv : validTokens s = [] := by rcases hs with rfl | rfl <;> decide
    simp [hv]
  · rw [if_neg hs]
    by_cases hv : (validTokens s).toFinset = ∅
    · rw [if_pos hv]
      have hnil : validTokens s = [] := by
        rw [← List.toFinset_eq_empty_iff]
        exact hv
      simp [hnil]
    · rw [if_neg hv]
      have hne : validTokens s ≠ [] := by
        intro h
        exact hv (by simp [h])
      simp [List.mem_toFinset, hne]

/-- C9: industry matching is case sensitive; a raw code string containing no
exact-case catalog token (lowercase "c" for instance) parses to the general
fallback set containing just "0", which makes the document relevant to every
user code, so get_relevant_documents keeps such a document for all users. -/
theorem unparseable_codes_widen :
    (validTokens ("c") = [] ∧ parse_onace_codes ("c") = {"0"})
  ∧ (∀ raw : String, validTokens raw = [] → parse_onace_codes raw = {"0"})
  ∧ (∀ raw : String, validTokens raw = [] →
      ∀ u : String, is_document_relevant (parse_onace_codes raw) u = true)
  ∧ (∀ (documents : List Document) (u : String) (d : Document),
      d ∈ documents → validTokens d.rawCodes = [] →
      d ∈ get_relevant_documents documents u) := by
  have hparse : ∀ raw : String, validTokens raw = [] → parse_onace_codes raw = {"0"} := by
    intro raw h
    unfold parse_onace_codes
    by_cases hs : raw = "" ∨ raw = "nan"
    · rw [if_pos hs]
    · rw [if_neg hs, if_pos (by simp [h])]
  have hrel : ∀ raw : String, validTokens raw = [] →
      ∀ u : String, is_document_relevant (parse_onace_codes raw) u = true := by
    intro raw h u
    rw [hparse raw h]
    simp [is_document_relevant]
  refine ⟨⟨by decide, by decide⟩, hparse, hrel, ?_⟩
  intro documents u d hd hvt
  unfold get_relevant_documents
  rw [List.mem_filter]
  exact ⟨hd, by rw [hrel d.rawCodes hvt u]⟩

/-- Witness for unparseable_codes_widen: a document tagged lowercase "c" is
kept for a user with code "K". -/
theorem unparseable_codes_witness :
    lowercaseDoc ∈ get_relevant_documents [lowercaseDoc] ("K") :=
  unparseable_codes_widen.2.2.2 [lowercaseDoc] ("K") lowercaseDoc (by decide) (by decide)

/-- C8: the link classifier returns at most one URL; a returned URL is the
static table entry of one of the three topics water, industry, nature; a call
failure or any classification outside the closed set yields no link and no
error; and the static table maps each topic to exactly one fixed URL. -/
theorem link_classifier_spec :
    (∀ resp : Option String, (get_relevant_links resp).length ≤ 1)
  ∧ (∀ (resp : Option String) (url : String), url ∈ get_relevant_links resp →
      ∃ t : String, classify_query_intent resp = some t
        ∧ (t = "water" ∨ t = "industry" ∨ t = "nature")
        ∧ manager_links t = some url)
  ∧ get_relevant_links none = []
  ∧ (∀ raw : String,
      ((pyStrip raw.data).map Char.toLower).asString ≠ "water" →
      ((pyStrip raw.data).map Char.toLower).asString ≠ "industry" →
      ((pyStrip raw.data).map Char.toLower).asString ≠ "nature" →
      get_relevant_links (some raw) = [])
  ∧ manager_links ("water") = some ("https://maps.wisa.bmluk.gv.at/emreg")
  ∧ manager_links ("industry")
      = some ("https://industry.eea.europa.eu/explore/explore-data-map/map")
  ∧ manager_links ("nature") = some ("https://natura2000.eea.europa.eu") := by
  refine ⟨?_, ?_, rfl, ?_, rfl, rfl, rfl⟩
  · intro resp
    unfold get_relevant_links
    rcases hc : classify_query_intent resp with _ | t
    · simp
    · rcases hm : manager_links t with _ | url
      · simp [hm]
      · simp [hm]
  · intro resp url hurl
    unfold get_relevant_links at hurl
    rcases hc : classify_query_intent resp with _ | t
    · rw [hc] at hurl
      simp at hurl
    · rw [hc] at hurl
      rcases hm : manager_links t with _ | u
      · simp [hm] at hurl
      · simp [hm] at hurl
        subst hurl
        refine ⟨t, rfl, ?_, hm⟩
        by_contra hcl
        push_neg at hcl
        unfold manager_links at hm
        rw [if_neg hcl.1, if_neg hcl.2.1, if_neg hcl.2.2] at hm
        exact Option.noConfusion hm
  · intro raw h1 h2 h3
    have hcond : ¬(((pyStrip raw.data).map Char.toLower).asString = "water"
        ∨ ((pyStrip raw.data).map Char.toLower).asString = "industry"
        ∨ ((pyStrip raw.data).map Char.toLower).asString = "nature") := by
      push_neg
      exact ⟨h1, h2, h3⟩
    have hcls : classify_query_intent (some raw) = none := by
      show (if ((pyStrip raw.data).map Char.toLower).asString = "water"
          ∨ ((pyStrip raw.data).map Char.toLower).asString = "industry"
          ∨ ((pyStrip raw.data).map Char.toLower).asString = "nature"
        then some (((pyStrip raw.data).map Char.toLower).asString) else none) = none
      rw [if_neg hcond]
    unfold get_relevant_links
    rw [hcls]

/-- Witness for link_classifier_spec: the classification "banana" yields no
link. -/
theorem link_classifier_witness :
    get_relevant_links (some ("banana")) = [] :=
  link_classifier_spec.2.2.2.1 ("banana") (by decide) (by decide) (by decide)

/-- C10: deduplication and priority ranking only select and reorder; every
chunk in the returned evidence list is an unmodified element of the retrieved
pool, and the sources list is exactly the filename projection of the returned
chunks. -/
theorem evidence_frame :
    ∀ (env : Env) (query : String) (top_k : Nat),
      (∀ c ∈ (generate_answer env query top_k).chunks, c ∈ retrievedPool env query)
    ∧ (generate_answer env query top_k).sources
        = ((generate_answer env query top_k).chunks).map sourceName := by
  intro env query top_k
  constructor
  · intro c hc
    unfold generate_answer at hc
    unfold retrievedPool
    rcases hg : gatherAll ((search_queries env query).map env.search) with _ | ls
    · rw [hg] at hc
      simp [errorResult] at hc
    · rw [hg] at hc
      rcases hs : env.synthesisResponse with _ | ans
      · rw [hs] at hc
        simp [errorResult] at hc
      · rw [hs] at hc
        show c ∈ ls.flatten
        exact mem_dedup (mem_rank hc)
  · unfold generate_answer
    rcases hg : gatherAll ((search_queries env query).map env.search) with _ | ls
    · rfl
    · rcases hs : env.synthesisResponse with _ | ans
      · rfl
      · rfl

/-- Witness for evidence_frame at a concrete successful environment. -/
theorem evidence_frame_witness :
    chunkWater ∈ retrievedPool frameEnv ("water query")
  ∧ (generate_answer frameEnv ("water query") 3).sources
      = ((generate_answer frameEnv ("water query") 3).chunks).map sourceName :=
  ⟨(evidence_frame frameEnv ("water query") 3).1 chunkWater (by decide),
   (evidence_frame frameEnv ("water query") 3).2⟩

end Aika
